import Mathlib

set_option maxHeartbeats 1000000

/-!
Shallow embedding of the safrs `jsonapi.py` request pipeline.

Python strings are modelled as `List Char`; request query parameters as
association lists; SQLAlchemy queries over a table as the list of its rows.
Collaborators that live outside this file's source (the storage layer's
`get_instance`, the id-decoding rule `validate_id`, the configured
`UNLIMITED` page size, the logger's effective level) are passed in as
explicit parameters, so every definition below is translated from
`jsonapi.py` itself.
-/

/-! ## Basic Python string / dict helpers -/

/-- Python `s.split(sep)` for a one-character separator: `"".split(",") = [""]`,
`"a,".split(",") = ["a", ""]`. -/
def splitOnChar (c : Char) : List Char → List (List Char)
  | [] => [[]]
  | x :: xs =>
    match splitOnChar c xs with
    | [] => [[]]
    | p :: ps => if x = c then [] :: p :: ps else (x :: p) :: ps

/-- The characters strictly after the first occurrence of `c`
(so `".".join(s.split(".")[1:])` when `c = '.'` and `c ∈ s`). -/
def dropThroughChar (c : Char) : List Char → List Char
  | [] => []
  | x :: xs => if x = c then xs else dropThroughChar c xs

/-- First-match association-list lookup (Python `dict.get` on a dict built
without duplicate keys, or `getattr` resolution by name). -/
def assocFind {κ α : Type} [DecidableEq κ] (k : κ) : List (κ × α) → Option α
  | [] => none
  | (k', v) :: rest => if k = k' then some v else assocFind k rest

/-- Python `d[k] = v` on an association list without duplicate keys. -/
def assocSet {κ α : Type} [DecidableEq κ] (k : κ) (v : α) :
    List (κ × α) → List (κ × α)
  | [] => [(k, v)]
  | (k', v') :: rest => if k' = k then (k, v) :: rest else (k', v') :: assocSet k v rest

/-- Python `set.add`: keep insertion order, drop duplicates. -/
def setInsert (acc : List Nat) (x : Nat) : List Nat :=
  if x ∈ acc then acc else acc ++ [x]

/-- Python `set.union` with an iterable, deduplicating into `acc`. -/
def setUnion (acc : List Nat) (xs : List Nat) : List Nat :=
  xs.foldl setInsert acc

/-- Digits of a decimal numeral to a natural number. -/
def digitsToNat (ds : List Char) : Nat :=
  ds.foldl (fun a c => a * 10 + (c.toNat - 48)) 0

/-- Python `int(s)` on a string: optional surrounding spaces, an optional
sign, then at least one digit; any other shape raises `ValueError`
(modelled as `none`). -/
def pyInt (s : List Char) : Option Int :=
  let t := ((s.dropWhile (· = ' ')).reverse.dropWhile (· = ' ')).reverse
  match t with
  | '-' :: ds =>
    if ds ≠ [] ∧ ds.all Char.isDigit then some (-(digitsToNat ds : Int)) else none
  | '+' :: ds =>
    if ds ≠ [] ∧ ds.all Char.isDigit then some ((digitsToNat ds : Int)) else none
  | ds =>
    if ds ≠ [] ∧ ds.all Char.isDigit then some ((digitsToNat ds : Int)) else none

/-! ## Exceptions

`errors.py` is not part of the embedded source; its classes only carry a
client-facing `message` and a `status_code` (explicitly given at the raise
site, or the class default).  The class defaults are kept abstract and are
supplied as parameters (`dV`, `dG`, `dN`) where needed.  Built-in Python
exceptions carry `str(exc)` as payload and have no `status_code`
attribute. -/

inductive PyExc where
  | validationError : List Char → Option Nat → PyExc
  | genericError : List Char → Option Nat → PyExc
  | notFoundError : List Char → Option Nat → PyExc
  | werkzeugNotFound : PyExc
  | typeError : List Char → PyExc
  | indexError : List Char → PyExc
  | zeroDivisionError : List Char → PyExc
  | attributeError : List Char → PyExc
  | otherExc : Option Nat → List Char → PyExc
deriving DecidableEq

deriving instance DecidableEq for Except

/-- Which exceptions fall through to the bare `except Exception` clause of
`http_method_decorator` (everything not matched by the named clauses). -/
def is_unclassified : PyExc → Bool
  | .validationError _ _ => false
  | .genericError _ _ => false
  | .notFoundError _ _ => false
  | .werkzeugNotFound => false
  | _ => true

/-- `getattr(exc, 'status_code')` resp. `getattr(exc, 'status_code', 500)`
as used in `http_method_decorator`; `dV`, `dG`, `dN` are the class-default
status codes of the three safrs error classes. -/
def exc_status (dV dG dN : Nat) : PyExc → Nat
  | .validationError _ (some s) => s
  | .validationError _ none => dV
  | .genericError _ (some s) => s
  | .genericError _ none => dG
  | .notFoundError _ (some s) => s
  | .notFoundError _ none => dN
  | .werkzeugNotFound => 404
  | .otherExc (some s) _ => s
  | _ => 500

def unknownErrorMsg : List Char := "Unknown Error".data

/-- The `detail` message chosen by `http_method_decorator` for an exception:
safrs errors expose `exc.message`, `werkzeug.exceptions.NotFound` maps to
`'Not Found'`, and any other exception is redacted to `'Unknown Error'`
when the logger's effective level is above `DEBUG`. -/
def exc_message (logLevel debugLevel : Nat) : PyExc → List Char
  | .validationError m _ => m
  | .genericError m _ => m
  | .notFoundError m _ => m
  | .werkzeugNotFound => "Not Found".data
  | .typeError m => if logLevel > debugLevel then unknownErrorMsg else m
  | .indexError m => if logLevel > debugLevel then unknownErrorMsg else m
  | .zeroDivisionError m => if logLevel > debugLevel then unknownErrorMsg else m
  | .attributeError m => if logLevel > debugLevel then unknownErrorMsg else m
  | .otherExc _ m => if logLevel > debugLevel then unknownErrorMsg else m

/-- One member of the `errors` array of the error envelope:
`dict(detail=message)`. -/
structure ErrorObject where
  detail : List Char
deriving DecidableEq

/-- Outcome of one wrapped request: either the handler's result is returned
after `session.commit()`, or `session.rollback()` runs and
`abort(status_code, errors=[...])` emits an error envelope.  The two
constructors are mutually exclusive, so a response never carries both a
data document and an errors array. -/
inductive WrapperResult (α : Type) where
  | commitAndReturn : α → WrapperResult α
  | rollbackAndAbort : Nat → List ErrorObject → WrapperResult α
deriving DecidableEq

/-- `http_method_decorator.method_wrapper`: run the handler (`funResult`),
then `session.commit()` (`commitResult`); classify any raised exception,
roll back and abort with a single-element `errors` list. -/
def method_wrapper {α : Type} (dV dG dN logLevel debugLevel : Nat)
    (funResult : Except PyExc α) (commitResult : Except PyExc Unit) :
    WrapperResult α :=
  match funResult with
  | .error e =>
    .rollbackAndAbort (exc_status dV dG dN e) [⟨exc_message logLevel debugLevel e⟩]
  | .ok a =>
    match commitResult with
    | .error e =>
      .rollbackAndAbort (exc_status dV dG dN e) [⟨exc_message logLevel debugLevel e⟩]
    | .ok _ => .commitAndReturn a

/-! ## Pagination (`paginate`) -/

/-- An `(offset, limit)` pair as used for the pagination link targets. -/
structure PageArgs where
  offset : Int
  limit : Int
deriving DecidableEq

/-- The five pagination links; a link is `none` when `paginate` deleted it
from the `links` dict. -/
structure PageLinksT where
  selfL : PageArgs
  firstL : Option PageArgs
  lastL : Option PageArgs
  nextL : Option PageArgs
  prevL : Option PageArgs
deriving DecidableEq

/-- `first_args = (0, limit)`. -/
def first_args_def (limit : Int) : PageArgs := ⟨0, limit⟩

/-- `last_args = (int(int(count / limit) * limit), limit)`; Python's
`int(a / b)` truncates the true quotient toward zero, i.e. `Int.tdiv`. -/
def last_args_def (limit count : Int) : PageArgs := ⟨Int.tdiv count limit * limit, limit⟩

/-- `page_base = int(page_offset / limit) * limit`. -/
def page_base_def (page_offset limit : Int) : Int := Int.tdiv page_offset limit * limit

/-- `self_args = (page_base if page_base <= last_args[0] else last_args[0], limit)`. -/
def self_args_def (page_offset limit count : Int) : PageArgs :=
  ⟨if page_base_def page_offset limit ≤ (last_args_def limit count).offset then
      page_base_def page_offset limit
    else (last_args_def limit count).offset, limit⟩

/-- `next_args = (page_offset + limit, limit) if page_offset + limit <= last_args[0] else last_args`. -/
def next_args_def (page_offset limit count : Int) : PageArgs :=
  if page_offset + limit ≤ (last_args_def limit count).offset then
    ⟨page_offset + limit, limit⟩
  else last_args_def limit count

/-- `prev_args = (page_offset - limit, limit) if page_offset > limit else first_args`. -/
def prev_args_def (page_offset limit : Int) : PageArgs :=
  if page_offset > limit then ⟨page_offset - limit, limit⟩ else first_args_def limit

/-- The links dict built by `paginate` from parsed `page_offset`, `limit`
and the total `count`: the `self` link is rendered with the raw
`page_offset` (`get_link(page_offset, limit)`), and the four other links
are deleted under the four comparisons on lines 223-230 of `jsonapi.py`.
With `limit = 0` the `page_base` division raises `ZeroDivisionError`. -/
def paginate_links (page_offset limit count : Int) : Except PyExc PageLinksT :=
  if limit = 0 then .error (.zeroDivisionError "division by zero".data)
  else
    let first_args := first_args_def limit
    let last_args := last_args_def limit count
    let self_args := self_args_def page_offset limit count
    let next_args := next_args_def page_offset limit count
    let prev_args := prev_args_def page_offset limit
    .ok
      { selfL := ⟨page_offset, limit⟩
        firstL := if first_args = self_args then none else some first_args
        lastL := if last_args = self_args then none else some last_args
        nextL := if next_args = last_args then none else some next_args
        prevL := if prev_args = first_args then none else some prev_args }

/-- `object_query.offset(page_offset).limit(limit).all()` over the list of
rows of the query (valid for non-negative arguments, which the theorems
below hypothesise). -/
def pySlice (rows : List Nat) (off lim : Int) : List Nat :=
  (rows.drop off.toNat).take lim.toNat

/-- `paginate` after argument parsing: its links, the materialized page,
with the total `count` supplied by `_s_count()` (or the query count
fall-back) as an abstract argument. -/
def paginate_q (rows : List Nat) (page_offset limit count : Int) :
    Except PyExc (PageLinksT × List Nat) :=
  match paginate_links page_offset limit count with
  | .error e => .error e
  | .ok links => .ok (links, pySlice rows page_offset limit)

/-- A Python variable that holds either an `int` or a leftover `str`. -/
inductive PyVal where
  | intv : Int → PyVal
  | strv : List Char → PyVal
deriving DecidableEq

/-- Lines 182-188 of `jsonapi.py`: `page[offset]` defaults to `0`, and the
`except` clause resets it to `0` when `int()` fails. -/
def parse_offset (arg : Option (List Char)) : Int :=
  match arg with
  | none => 0
  | some s => (pyInt s).getD 0

/-- Lines 190-196 of `jsonapi.py`: `limit` starts as the raw request value
(or the configured `UNLIMITED` default when absent); when the value is
present but `int()` fails, the `except` clause only logs, so `limit`
*remains the unparsed string*. -/
def parse_limit (arg : Option (List Char)) (unlimited : Int) : PyVal :=
  match arg with
  | none => .intv unlimited
  | some s =>
    match pyInt s with
    | some n => .intv n
    | none => .strv s

/-- `paginate` from the raw `page[offset]` / `page[limit]` request values:
when `parse_limit` left a string in `limit`, the `page_base` computation
`int(page_offset / limit)` raises `TypeError`. -/
def paginate_request (rows : List Nat) (offsetArg limitArg : Option (List Char))
    (unlimited : Int) (count : Int) : Except PyExc (PageLinksT × List Nat) :=
  let page_offset := parse_offset offsetArg
  match parse_limit limitArg unlimited with
  | .strv _ => .error (.typeError "unsupported operand type for int division".data)
  | .intv limit => paginate_q rows page_offset limit count

/-! ## Filtering (`jsonapi_filter`) -/

/-- A `\w` character of the filter-key regex (ASCII word character). -/
def isWordChar (c : Char) : Bool := c.isAlphanum || c = '_'

/-- Try to match `filter\[(\w+)\]` at the start of `l`, returning the
captured column name. -/
def matchFilterAt (l : List Char) : Option (List Char) :=
  if l.take 7 = "filter[".data then
    let rest := l.drop 7
    let wrd := rest.takeWhile isWordChar
    match wrd, rest.drop wrd.length with
    | _ :: _, ']' :: _ => some wrd
    | _, _ => none
  else none

/-- `re.search('filter\[(\w+)\]', arg)`: the leftmost position at which the
pattern matches (since `\w` excludes `]`, the greedy `\w+` never
backtracks successfully, so a position matches exactly when the literal
prefix, a non-empty word run and `]` line up there). -/
def filterArgCol : List Char → Option (List Char)
  | [] => none
  | x :: xs =>
    match matchFilterAt (x :: xs) with
    | some col => some col
    | none => filterArgCol xs

/-- One row of the exposed table: column name to value. -/
abbrev RowT := List (List Char × List Char)

/-- The queried resource class: its declared column names (`getattr` on the
class succeeds exactly for these) and the rows of `safrs_object.query`. -/
structure Table where
  cols : List (List Char)
  rows : List RowT

/-- The value of column `c` in row `r`. -/
def rowVal (r : RowT) (c : List Char) : List Char := (assocFind c r).getD []

/-- `safrs_object.query.filter(column.in_(val.split(',')))`. -/
def filter_rows (tbl : Table) (col val : List Char) : List RowT :=
  tbl.rows.filter (fun r => decide (rowVal r col ∈ splitOnChar ',' val))

/-- The loop of `jsonapi_filter`: scan the query args in order; for each
whose key matches the filter regex, resolve the column on the class
(`getattr` raises `AttributeError` for an undeclared name) and record the
`(column, raw value)` filter. -/
def gather_filters (tbl : Table) : List (List Char × List Char) →
    Except PyExc (List (List Char × List Char))
  | [] => .ok []
  | (arg, v) :: rest =>
    match filterArgCol arg with
    | none => gather_filters tbl rest
    | some col =>
      if col ∈ tbl.cols then
        match gather_filters tbl rest with
        | .ok fs => .ok ((col, v) :: fs)
        | .error e => .error e
      else .error (.attributeError col)

/-- `jsonapi_filter`: with at least one filter the result is
`filtered[0].union_all(*filtered)` — a bag union (`UNION ALL`) of the
per-column filtered subqueries, in which `filtered[0]` occurs twice;
without filters, the whole query. -/
def jsonapi_filter (tbl : Table) (args : List (List Char × List Char)) :
    Except PyExc (List RowT) :=
  match gather_filters tbl args with
  | .error e => .error e
  | .ok [] => .ok tbl.rows
  | .ok (f0 :: fs) =>
    .ok (filter_rows tbl f0.1 f0.2 ++
      ((f0 :: fs).map (fun f => filter_rows tbl f.1 f.2)).flatten)

/-! ## Relationship values and the inclusion resolver (`get_included`) -/

/-- The shape of a relationship value read off an instance:
a to-one value (a `SAFRSBase` instance or `None`), an eagerly loaded
`InstrumentedList`, or a lazily loaded sliceable `AppenderBaseQuery`. -/
inductive RelValue where
  | one : Option Nat → RelValue
  | many : List Nat → RelValue
  | lazyq : List Nat → RelValue
deriving DecidableEq

/-- The world of instances: each instance id maps to the association list
of its class's relationships (`_s_relationships` keys, in declaration
order) with that instance's current value for each.  Relationship keys are
Python attribute identifiers and therefore contain no `'.'`; the proof
field records this. -/
structure World where
  rels : List (Nat × List (List Char × RelValue))
  wellKeys : ∀ p ∈ rels, ∀ kv ∈ p.2, ('.' : Char) ∉ kv.1

/-- The relationships of instance `i`'s class (with `i`'s values). -/
def relsOf (w : World) (i : Nat) : List (List Char × RelValue) :=
  (assocFind i w.rels).getD []

/-- `[r.key for r in instance._s_relationships]`. -/
def keysOf (w : World) (i : Nat) : List (List Char) := (relsOf w i).map Prod.fst

/-- `getattr(instance, relationship)` restricted to declared relationship
keys. -/
def lookupRel (w : World) (i : Nat) (k : List Char) : Option RelValue :=
  assocFind k (relsOf w i)

/-- The `'+all'` include sentinel (`INCLUDE_ALL`). -/
def allTok : List Char := "+all".data

/-- The `data` argument of `get_included`: a single `SAFRSBase` instance or
a list/set of instances. -/
inductive Dat where
  | inst : Nat → Dat
  | coll : List Nat → Dat

mutual

/-- `get_included(data, limit, include)` (lines 275-347 of `jsonapi.py`):
empty include spec gives the empty set; a collection resolves per element;
an instance splits the spec on `','`, extends the token list with every
declared relationship key when the `'+all'` sentinel is present, and folds
the per-token resolution over `set(includes)` (modelled as `dedup`;
Python's set iteration order is immaterial because every step is a set
union).  The result accumulator is a deduplicated list standing for the
Python `set`. -/
def get_included (w : World) (data : Dat) (limit : Nat) (inc : List Char) :
    List Nat :=
  if hinc : inc = [] then []
  else
    match data with
    | .coll l => go_coll w l limit inc []
    | .inst i =>
      go_tokens w i limit inc hinc
        (decide (allTok ∈
          (splitOnChar ',' inc ++
            if allTok ∈ splitOnChar ',' inc then keysOf w i else [])))
        ((splitOnChar ',' inc ++
          if allTok ∈ splitOnChar ',' inc then keysOf w i else []).dedup)
        (by
          intro t ht hdot
          have hdlen : ∀ u : List Char, ('.' : Char) ∈ u →
              (dropThroughChar '.' u).length < u.length := by
            intro u
            induction u with
            | nil => intro hu; cases hu
            | cons x xs ih =>
              intro hu
              by_cases hx : x = '.'
              · simp only [dropThroughChar, if_pos hx, List.length_cons]
                omega
              · have hu' : ('.' : Char) ∈ xs := by
                  rcases List.mem_cons.mp hu with h1 | h2
                  · exact absurd h1.symm hx
                  · exact h2
                simp only [dropThroughChar, if_neg hx, List.length_cons]
                have := ih hu'
                omega
          have hsplen : ∀ l : List Char, ∀ u ∈ splitOnChar ',' l,
              u.length ≤ l.length := by
            intro l
            induction l with
            | nil =>
              intro u hu
              simp only [splitOnChar, List.mem_singleton] at hu
              simp [hu]
            | cons x xs ih =>
              intro u hu
              rw [splitOnChar] at hu
              split at hu
              · simp only [List.mem_singleton] at hu
                simp [hu]
              · rename_i p ps hxs
                split at hu
                · rcases List.mem_cons.mp hu with h1 | h2
                  · simp [h1]
                  · have := ih u (by rw [hxs]; exact h2)
                    simp only [List.length_cons]
                    omega
                · rcases List.mem_cons.mp hu with h1 | h2
                  · have hp : p ∈ splitOnChar ',' xs := by
                      rw [hxs]; exact List.mem_cons_self p ps
                    have := ih p hp
                    subst h1
                    simp only [List.length_cons]
                    omega
                  · have := ih u (by rw [hxs]; exact List.mem_cons_of_mem p h2)
                    simp only [List.length_cons]
                    omega
          have ht' := List.mem_dedup.mp ht
          rcases List.mem_append.mp ht' with hs | hk
          · have h1 := hsplen inc t hs
            have h2 := hdlen t hdot
            omega
          · exfalso
            have hk' : t ∈ keysOf w i := by
              by_cases hall : allTok ∈ splitOnChar ',' inc
              · rw [if_pos hall] at hk; exact hk
              · rw [if_neg hall] at hk; cases hk
            have hfind : ∀ (L : List (Nat × List (List Char × RelValue)))
                (k : Nat) (r : List (List Char × RelValue)),
                assocFind k L = some r → (k, r) ∈ L := by
              intro L
              induction L with
              | nil => intro k r hr; simp [assocFind] at hr
              | cons q rest ih =>
                intro k r hr
                obtain ⟨k', v⟩ := q
                rw [assocFind] at hr
                by_cases hkk : k = k'
                · rw [if_pos hkk] at hr
                  injection hr with hr
                  subst hr; subst hkk
                  exact List.mem_cons_self _ _
                · rw [if_neg hkk] at hr
                  exact List.mem_cons_of_mem _ (ih k r hr)
            rcases List.mem_map.mp hk' with ⟨kv, hkv, hkvt⟩
            rcases hrf : assocFind i w.rels with _ | r
            · rw [relsOf, hrf] at hkv
              simp at hkv
            · rw [relsOf, hrf] at hkv
              have hmemw : (i, r) ∈ w.rels := hfind w.rels i r hrf
              have := w.wellKeys (i, r) hmemw kv hkv
              rw [hkvt] at this
              exact this hdot)
        []
termination_by (8 * inc.length + (match data with | .coll _ => 7 | .inst _ => 5), 0)
decreasing_by
  · apply Prod.Lex.left
    omega
  · apply Prod.Lex.left
    omega

/-- The per-element union loop of the collection case of `get_included`. -/
def go_coll (w : World) (l : List Nat) (limit : Nat) (inc : List Char)
    (acc : List Nat) : List Nat :=
  match l with
  | [] => acc
  | e :: es => go_coll w es limit inc (setUnion acc (get_included w (.inst e) limit inc))
termination_by (8 * inc.length + 6, l.length)
decreasing_by
  · apply Prod.Lex.left
    omega
  · apply Prod.Lex.right
    simp only [List.length_cons]
    omega

/-- The `for include in set(includes)` loop of `get_included`.  Per token:
split off the first dot-segment as the relationship name; when it is a
declared relationship, resolve its value (add a fresh to-one instance,
union an `InstrumentedList` or lazy query truncated to `limit`) — those
branches `continue`; only the lazy-query branch and tokens naming no
declared relationship fall through to the trailing block, which (for
`'+all'`) unions in `get_included(result, limit)` — with the *default
empty include spec* — once per current member, or (for a dotted token)
unions in `get_included(result, limit, nested_rel)`.  `h` records that
every dotted token came from splitting `inc` (relationship keys contain no
dot), which bounds the nested spec's length for termination. -/
def go_tokens (w : World) (i : Nat) (limit : Nat) (inc : List Char)
    (hne : ¬ inc = []) (allFlag : Bool) (toks : List (List Char))
    (h : ∀ t ∈ toks, ('.' : Char) ∈ t →
      (dropThroughChar '.' t).length < inc.length)
    (acc : List Nat) : List Nat :=
  match toks with
  | [] => acc
  | t :: ts =>
    let step : List Nat × Bool :=
      match lookupRel w i (t.takeWhile (fun ch => ch ≠ '.')) with
      | none => (acc, true)
      | some (.one (some c)) => (setInsert acc c, false)
      | some (.one none) => (acc, false)
      | some (.many l) => (setUnion acc (l.take limit), false)
      | some (.lazyq l) => (setUnion acc (l.take limit), true)
    let acc1 := step.1
    let acc2 :=
      if step.2 then
        if allFlag then
          if acc1 = [] then acc1
          else setUnion acc1 (get_included w (.coll acc1) limit [])
        else if hdot : ('.' : Char) ∈ t then
          if acc1 = [] ∨ dropThroughChar '.' t = [] then acc1
          else
            have hlt : (dropThroughChar '.' t).length < inc.length :=
              h t (List.mem_cons_self t ts) hdot
            setUnion acc1 (get_included w (.coll acc1) limit (dropThroughChar '.' t))
        else acc1
      else acc1
    go_tokens w i limit inc hne allFlag ts
      (fun u hu hd => h u (List.mem_cons_of_mem t hu) hd) acc2
termination_by (8 * inc.length + 4, toks.length)
decreasing_by
  · apply Prod.Lex.left
    have hpos : 0 < inc.length := List.length_pos.mpr hne
    simp only [List.length_nil]
    omega
  · apply Prod.Lex.left
    omega
  · apply Prod.Lex.right
    simp only [List.length_cons]
    omega

end

/-- The set of resources related to instance `i` through its directly
declared relationships, each collection truncated to `limit` — the
reference value for what `include=+all` actually produces. -/
def direct_included (w : World) (i : Nat) (limit : Nat) : List Nat :=
  (relsOf w i).foldl
    (fun acc kv =>
      match kv.2 with
      | .one (some c) => setInsert acc c
      | .one none => acc
      | .many l => setUnion acc (l.take limit)
      | .lazyq l => setUnion acc (l.take limit))
    []

/-! ## Relationship endpoint (`SAFRSRestRelationshipAPI`) -/

/-- `sqlalchemy.orm.interfaces` relationship directions. -/
inductive RelDirection where
  | manytoone
  | onetomany
  | manytomany
deriving DecidableEq

/-- The primary data of a relationship GET response: either the bare
relationship value (`result = relation`, the `MANYTOONE` no-child branch)
or a list of instance lookups (`[child]` / `[item for item in relation]`,
where a failed `get_instance` contributes `none`). -/
inductive RelGetData where
  | rawValue : RelValue → RelGetData
  | items : List (Option Nat) → RelGetData
deriving DecidableEq

/-- Outcome of `SAFRSRestRelationshipAPI.get`: a jsonified
`{data, links, meta}` document whose meta reports `TOONE`, the literal
`('Not Found', 404)` return, or a propagated Python exception. -/
inductive RelGetResult where
  | okResp : RelGetData → Bool → RelGetResult
  | notFound404 : RelGetResult
  | pyError : PyExc → RelGetResult
deriving DecidableEq

/-- `SAFRSRestRelationshipAPI.get` (lines 951-991) after `parse_args`:
`relation` is the current relationship value, `child_id` the optional
`{ChildId}` url parameter (Python truthiness: the empty string counts as
absent), `get_instance` the storage lookup.  With a child id: when the
relation is a `SAFRSBase` instance the child is returned *without* being
compared to the relation value; when it is a collection, membership
decides between `[child]` and `('Not Found', 404)`; when the to-one
relation is `None`, `child in relation` raises `TypeError`.  Without a
child id: `MANYTOONE` returns the bare relation, otherwise the iterated
list (iterating a non-collection raises `TypeError`). -/
def relationship_get (direction : RelDirection) (relation : RelValue)
    (child_id : Option (List Char)) (get_instance : List Char → Option Nat) :
    RelGetResult :=
  let toone := decide (direction = .manytoone)
  match child_id with
  | some cid =>
    if cid = [] then
      if direction = .manytoone then .okResp (.rawValue relation) toone
      else
        match relation with
        | .many l => .okResp (.items (l.map some)) toone
        | .lazyq l => .okResp (.items (l.map some)) toone
        | .one _ => .pyError (.typeError "object is not iterable".data)
    else
      let child := get_instance cid
      match relation with
      | .one (some _) => .okResp (.items [child]) toone
      | .one none => .pyError (.typeError "argument of type NoneType is not iterable".data)
      | .many l => if child ∈ l.map some then .okResp (.items [child]) toone else .notFound404
      | .lazyq l => if child ∈ l.map some then .okResp (.items [child]) toone else .notFound404
  | none =>
    if direction = .manytoone then .okResp (.rawValue relation) toone
    else
      match relation with
      | .many l => .okResp (.items (l.map some)) toone
      | .lazyq l => .okResp (.items (l.map some)) toone
      | .one _ => .pyError (.typeError "object is not iterable".data)

/-- A member of the request body's `data` array: a resource identifier
object with optional `id` and `type` members. -/
structure ResIdent where
  rid : Option (List Char)
  rtype : Option (List Char)
deriving DecidableEq

/-- Python falsiness of `item.get('id')` / `item.get('type')`: absent key
or empty string. -/
def pyFalsyStr : Option (List Char) → Bool
  | none => true
  | some [] => true
  | some (_ :: _) => false

/-- The `MANYTOONE` branch of `SAFRSRestRelationshipAPI.post`
(lines 1127-1142): `rel0` is the relationship value on entry,
`child_class_name` is `self.child_class.__name__`, `data` the request
body's `data` array.  On success the new relationship value and the
response `result` list are returned; an empty `data` array sets the
relation to `None` in the session and then hits `data[0]`, raising
`IndexError`. -/
def relationship_post_manytoone (child_class_name : List Char)
    (get_instance : List Char → Option Nat) (rel0 : Option Nat)
    (data : List ResIdent) : Except PyExc (Option Nat × List (Option Nat)) :=
  let relInSession := if data.length = 0 then none else rel0
  if data.length > 1 then
    .error (.validationError "Too many items for a MANYTOONE relationship".data (some 403))
  else
    match data.head? with
    | none =>
      -- relInSession is None here, but the raised IndexError rolls it back
      .error (.indexError "list index out of range".data)
    | some item =>
      if pyFalsyStr item.rid || pyFalsyStr item.rtype then
        .error (.validationError "Invalid data payload".data (some 403))
      else if item.rtype ≠ some child_class_name then
        .error (.validationError "Invalid type".data (some 403))
      else
        let child := get_instance (item.rid.getD [])
        let _ := relInSession
        .ok (child, [child])

/-- The relationship value actually persisted after
`http_method_decorator` brackets the handler: the handler's new value on
success, the entry value after `session.rollback()` on any exception. -/
def persisted_rel (rel0 : Option Nat)
    (outcome : Except PyExc (Option Nat × List (Option Nat))) : Option Nat :=
  match outcome with
  | .ok (r, _) => r
  | .error _ => rel0

/-! ## Resource PATCH (`SAFRSRestAPI.patch`) -/

/-- The top-level `data` member of a PATCH body: either not a JSON object,
or an object with optional `id` and `attributes` members. -/
inductive PatchDataField where
  | nonDict : PatchDataField
  | dataObj : Option (List Char) → List (List Char × List Char) → PatchDataField
deriving DecidableEq

/-- A parsed PATCH request body (`request.get_json()`): not a dict, or a
dict with an optional `data` member. -/
inductive PatchBody where
  | nonDict : PatchBody
  | bodyObj : Option PatchDataField → PatchBody
deriving DecidableEq

/-- Python falsiness of the `data` value: the empty dict (`not data`). -/
def data_falsy : PatchDataField → Bool
  | .dataObj none [] => true
  | _ => false

/-- The effect of a successful PATCH: which instance was `_s_patch`ed and
with which attributes (including the injected `'id'`). -/
structure PatchEffect where
  target : Nat
  attributes : List (List Char × List Char)
deriving DecidableEq

/-- `SAFRSRestAPI.patch` (lines 493-537) up to and including the
`_s_patch` call: validate the url id, the body shape, that the body's
`data.id` decodes (`id_type.validate_id`, kept abstract) to the same value
as the url id, and that the instance exists; the response building after
`_s_patch` is not modelled.  Any raised `ValidationError` leaves every
instance unmodified (there is no write before the raise, and the request
wrapper rolls back). -/
def resource_patch (url_id : Option (List Char)) (req : Option PatchBody)
    (validate_id : List Char → List Char) (get_instance : List Char → Option Nat) :
    Except PyExc PatchEffect :=
  match url_id with
  | none => .error (.validationError "Invalid ID".data none)
  | some uid =>
    if uid = [] then .error (.validationError "Invalid ID".data none)
    else
      match req with
      | none => .error (.validationError "Invalid Object Type".data none)
      | some .nonDict => .error (.validationError "Invalid Object Type".data none)
      | some (.bodyObj dataField) =>
        match dataField with
        | none => .error (.validationError "Invalid Data Object".data none)
        | some .nonDict => .error (.validationError "Invalid Data Object".data none)
        | some (.dataObj body_id attrs) =>
          if data_falsy (.dataObj body_id attrs) then
            .error (.validationError "Invalid Data Object".data none)
          else
            match body_id with
            | none => .error (.validationError "Invalid ID".data none)
            | some bid =>
              if validate_id uid ≠ validate_id bid then
                .error (.validationError "Invalid ID".data none)
              else
                match get_instance uid with
                | none => .error (.validationError "Invalid ID".data none)
                | some inst => .ok ⟨inst, assocSet "id".data uid attrs⟩

/-- Is the outcome a raised `ValidationError` (of any message/status)? -/
def is_validation_error {α : Type} : Except PyExc α → Bool
  | .error (.validationError _ _) => true
  | _ => false

/-! ## Concrete fixtures used by witnesses and counterexamples -/

/-- A three-instance world: instance `0` has one relationship `b` pointing
to instance `1`, instance `1` has one relationship `c` pointing to
instance `2`, instance `2` has no relationships. -/
def chainWorld : World :=
  ⟨[(0, [(['b'], .one (some 1))]), (1, [(['c'], .one (some 2))]), (2, [])],
    by decide⟩

/-- A two-column, four-row table: colors and sizes. -/
def colorTable : Table :=
  { cols := ["color".data, "size".data]
    rows :=
      [ [("color".data, "red".data), ("size".data, "s".data)]
      , [("color".data, "blue".data), ("size".data, "m".data)]
      , [("color".data, "green".data), ("size".data, "m".data)]
      , [("color".data, "red".data), ("size".data, "l".data)] ] }

/-- `Except.ok` effects of a request outcome (`none` when an exception was
raised, in which case the wrapper rolled the session back). -/
def patch_effects {α : Type} : Except PyExc α → Option α
  | .ok a => some a
  | .error _ => none

/-- Concrete two-element `data` array for the C6 witness. -/
def twoIdents : List ResIdent :=
  [⟨some ['1'], some ['C']⟩, ⟨some ['2'], some ['C']⟩]

/-- The four rows of `colorTable`, named for the C1 witness. -/
def rowRedS : RowT := [("color".data, "red".data), ("size".data, "s".data)]

def rowBlueM : RowT := [("color".data, "blue".data), ("size".data, "m".data)]

def rowGreenM : RowT := [("color".data, "green".data), ("size".data, "m".data)]

def rowRedL : RowT := [("color".data, "red".data), ("size".data, "l".data)]

/-- The request args `filter[color]=red,blue&filter[size]=m`. -/
def c1args : List (List Char × List Char) :=
  [("filter[color]".data, "red,blue".data), ("filter[size]".data, "m".data)]

/-- The filters `gather_filters` extracts from `c1args`. -/
def c1filters : List (List Char × List Char) :=
  [("color".data, "red,blue".data), ("size".data, "m".data)]

/-- The `UNION ALL` bag `jsonapi_filter` materializes for `c1args` over
`colorTable`. -/
def c1res : List RowT :=
  [rowRedS, rowBlueM, rowRedL, rowRedS, rowBlueM, rowRedL, rowBlueM, rowGreenM]

/-! ## Helper lemmas -/

theorem setUnion_nil (acc : List Nat) : setUnion acc [] = acc := rfl

theorem get_included_nil (w : World) (data : Dat) (limit : Nat) :
    get_included w data limit [] = [] := by
  rw [get_included]
  rfl

theorem assocFind_mem {κ α : Type} [DecidableEq κ] (k : κ) (L : List (κ × α)) (r : α)
    (h : assocFind k L = some r) : (k, r) ∈ L := by
  induction L with
  | nil => simp [assocFind] at h
  | cons q rest ih =>
    obtain ⟨k', v⟩ := q
    rw [assocFind] at h
    by_cases hkk : k = k'
    · rw [if_pos hkk] at h
      injection h with h
      subst h; subst hkk
      exact List.mem_cons_self _ _
    · rw [if_neg hkk] at h
      exact List.mem_cons_of_mem _ (ih h)

theorem assocFind_eq_none {κ α : Type} [DecidableEq κ] (k : κ) (L : List (κ × α))
    (h : k ∉ L.map Prod.fst) : assocFind k L = none := by
  induction L with
  | nil => rfl
  | cons q rest ih =>
    obtain ⟨k', v⟩ := q
    rw [assocFind]
    have hk : k ≠ k' := by
      intro hk
      exact h (by simp [hk])
    rw [if_neg hk]
    exact ih (fun hmem => h (List.mem_cons_of_mem _ hmem))

theorem assocFind_of_nodup {κ α : Type} [DecidableEq κ] (L : List (κ × α))
    (hnd : (L.map Prod.fst).Nodup) (kv : κ × α) (hkv : kv ∈ L) :
    assocFind kv.1 L = some kv.2 := by
  induction L with
  | nil => cases hkv
  | cons q rest ih =>
    obtain ⟨k', v⟩ := q
    rcases List.mem_cons.mp hkv with rfl | hmem
    · rw [assocFind, if_pos rfl]
    · rw [assocFind]
      have hk : kv.1 ≠ k' := by
        intro hk
        have : k' ∈ rest.map Prod.fst := by
          exact List.mem_map.mpr ⟨kv, hmem, hk ▸ rfl⟩
        exact (List.nodup_cons.mp (by simpa using hnd)).1 this
      rw [if_neg hk]
      exact ih (List.nodup_cons.mp (by simpa using hnd)).2 hmem

theorem relsOf_no_dot (w : World) (i : Nat) :
    ∀ kv ∈ relsOf w i, ('.' : Char) ∉ kv.1 := by
  intro kv hkv
  rcases hrf : assocFind i w.rels with _ | r
  · rw [relsOf, hrf] at hkv
    simp at hkv
  · rw [relsOf, hrf] at hkv
    exact w.wellKeys (i, r) (assocFind_mem i w.rels r hrf) kv hkv

theorem keysOf_no_dot (w : World) (i : Nat) (t : List Char) (ht : t ∈ keysOf w i) :
    ('.' : Char) ∉ t := by
  rcases List.mem_map.mp ht with ⟨kv, hkv, rfl⟩
  exact relsOf_no_dot w i kv hkv

theorem lookupRel_eq_none (w : World) (i : Nat) (k : List Char)
    (h : k ∉ keysOf w i) : lookupRel w i k = none :=
  assocFind_eq_none k (relsOf w i) h

theorem takeWhile_ne_dot (k : List Char) (hk : ('.' : Char) ∉ k) :
    k.takeWhile (fun ch => ch ≠ '.') = k := by
  induction k with
  | nil => rfl
  | cons x xs ih =>
    have hx : x ≠ '.' := fun h => hk (by rw [h]; exact List.mem_cons_self _ _)
    have hxs : ('.' : Char) ∉ xs := fun h => hk (List.mem_cons_of_mem _ h)
    rw [List.takeWhile_cons, if_pos (decide_eq_true hx), ih hxs]

theorem get_included_inst (w : World) (i : Nat) (limit : Nat) (inc : List Char)
    (hinc : ¬ inc = []) (toks : List (List Char))
    (htoks : (splitOnChar ',' inc ++
      if allTok ∈ splitOnChar ',' inc then keysOf w i else []).dedup = toks)
    (flag : Bool)
    (hflag : decide (allTok ∈ (splitOnChar ',' inc ++
      if allTok ∈ splitOnChar ',' inc then keysOf w i else [])) = flag)
    (h : ∀ t ∈ toks, ('.' : Char) ∈ t →
      (dropThroughChar '.' t).length < inc.length) :
    get_included w (.inst i) limit inc = go_tokens w i limit inc hinc flag toks h [] := by
  subst htoks
  subst hflag
  rw [get_included]
  rw [dif_neg hinc]

theorem go_tokens_keys (w : World) (i : Nat) (limit : Nat) (inc : List Char)
    (hne : ¬ inc = []) :
    ∀ (toks : List (List Char)) (rl : List (List Char × RelValue)),
      toks = rl.map Prod.fst →
      ∀ (acc : List Nat)
        (h : ∀ t ∈ toks, ('.' : Char) ∈ t →
          (dropThroughChar '.' t).length < inc.length),
        (∀ kv ∈ rl, lookupRel w i kv.1 = some kv.2) →
        (∀ kv ∈ rl, ('.' : Char) ∉ kv.1) →
        go_tokens w i limit inc hne true toks h acc
          = rl.foldl
              (fun acc kv =>
                match kv.2 with
                | .one (some c) => setInsert acc c
                | .one none => acc
                | .many l => setUnion acc (l.take limit)
                | .lazyq l => setUnion acc (l.take limit))
              acc := by
  intro toks
  induction toks with
  | nil =>
    intro rl hrl acc h hsub hdf
    have hrlnil : rl = [] := by
      cases rl with
      | nil => rfl
      | cons q qs => simp at hrl
    subst hrlnil
    rw [go_tokens.eq_def]
    rfl
  | cons t ts ih =>
    intro rl hrl acc h hsub hdf
    cases rl with
    | nil => simp at hrl
    | cons kv rest =>
      obtain ⟨k, v⟩ := kv
      rw [List.map_cons] at hrl
      injection hrl with he1 he2
      subst he2
      have hk : ('.' : Char) ∉ t := by
        rw [he1]
        exact hdf (k, v) (List.mem_cons_self _ _)
      have htw : t.takeWhile (fun ch => ch ≠ '.') = t := takeWhile_ne_dot t hk
      have hlook : lookupRel w i t = some v := by
        rw [he1]
        exact hsub (k, v) (List.mem_cons_self _ _)
      rw [go_tokens.eq_def]
      simp only []
      rw [htw, hlook]
      have hunion : ∀ a : List Nat,
          (if a = [] then a else setUnion a (get_included w (.coll a) limit [])) = a := by
        intro a
        rw [get_included_nil]
        split <;> rfl
      have ihall := ih rest rfl
      cases v with
      | one o =>
        cases o with
        | none =>
          simp only [List.foldl_cons]
          exact ihall acc (fun u hu hd => h u (List.mem_cons_of_mem _ hu) hd)
            (fun q hq => hsub q (List.mem_cons_of_mem _ hq))
            (fun q hq => hdf q (List.mem_cons_of_mem _ hq))
        | some c =>
          simp only [List.foldl_cons]
          exact ihall (setInsert acc c) (fun u hu hd => h u (List.mem_cons_of_mem _ hu) hd)
            (fun q hq => hsub q (List.mem_cons_of_mem _ hq))
            (fun q hq => hdf q (List.mem_cons_of_mem _ hq))
      | many l =>
        simp only [List.foldl_cons]
        exact ihall (setUnion acc (l.take limit)) (fun u hu hd => h u (List.mem_cons_of_mem _ hu) hd)
          (fun q hq => hsub q (List.mem_cons_of_mem _ hq))
          (fun q hq => hdf q (List.mem_cons_of_mem _ hq))
      | lazyq l =>
        simp only [hunion, List.foldl_cons]
        exact ihall (setUnion acc (l.take limit)) (fun u hu hd => h u (List.mem_cons_of_mem _ hu) hd)
          (fun q hq => hsub q (List.mem_cons_of_mem _ hq))
          (fun q hq => hdf q (List.mem_cons_of_mem _ hq))

theorem go_tokens_cons_nokey (w : World) (i : Nat) (limit : Nat) (inc : List Char)
    (hne : ¬ inc = []) (t : List Char) (ts : List (List Char))
    (h : ∀ u ∈ t :: ts, ('.' : Char) ∈ u →
      (dropThroughChar '.' u).length < inc.length)
    (hlook : lookupRel w i (t.takeWhile (fun ch => ch ≠ '.')) = none) :
    go_tokens w i limit inc hne true (t :: ts) h []
      = go_tokens w i limit inc hne true ts
          (fun u hu hd => h u (List.mem_cons_of_mem t hu) hd) [] := by
  rw [go_tokens.eq_def]
  simp only []
  rw [hlook]
  rfl

theorem get_included_allTok (w : World) (i : Nat) (limit : Nat)
    (hnk : allTok ∉ keysOf w i) (hnd : (keysOf w i).Nodup) :
    get_included w (.inst i) limit allTok = direct_included w i limit := by
  have h1 : splitOnChar ',' allTok = [allTok] := by decide
  have hmem : allTok ∈ splitOnChar ',' allTok := by
    rw [h1]
    exact List.mem_cons_self _ _
  have hnodup : (allTok :: keysOf w i).Nodup := List.nodup_cons.mpr ⟨hnk, hnd⟩
  have htoks : (splitOnChar ',' allTok ++
      if allTok ∈ splitOnChar ',' allTok then keysOf w i else []).dedup
      = allTok :: keysOf w i := by
    rw [h1]
    rw [if_pos (show allTok ∈ [allTok] from List.mem_cons_self _ _)]
    rw [List.singleton_append]
    exact List.dedup_eq_self.mpr hnodup
  have hflag : decide (allTok ∈ (splitOnChar ',' allTok ++
      if allTok ∈ splitOnChar ',' allTok then keysOf w i else [])) = true :=
    decide_eq_true (List.mem_append.mpr (Or.inl hmem))
  have hprf : ∀ t ∈ allTok :: keysOf w i, ('.' : Char) ∈ t →
      (dropThroughChar '.' t).length < allTok.length := by
    intro t ht hdot
    rcases List.mem_cons.mp ht with rfl | hkm
    · exact absurd hdot (by decide)
    · exact absurd hdot (keysOf_no_dot w i t hkm)
  have htwall : allTok.takeWhile (fun ch => ch ≠ '.') = allTok := by decide
  refine (get_included_inst w i limit allTok (by decide) (allTok :: keysOf w i) htoks
    true hflag hprf).trans ?_
  refine (go_tokens_cons_nokey w i limit allTok (by decide) allTok (keysOf w i) hprf
    (by rw [htwall]; exact lookupRel_eq_none w i allTok hnk)).trans ?_
  refine (go_tokens_keys w i limit allTok (by decide) (keysOf w i) (relsOf w i) rfl []
    (fun u hu hd => hprf u (List.mem_cons_of_mem _ hu) hd)
    (fun kv hkv => assocFind_of_nodup (relsOf w i) hnd kv hkv)
    (fun kv hkv => relsOf_no_dot w i kv hkv)).trans ?_
  rfl

/-! ## Claim theorems -/

/-- C4: any exception raised by the handler or by the commit makes the
per-request wrapper roll back and abort with an error envelope whose
`errors` array holds exactly one object carrying a `detail` message (the
`WrapperResult` constructors separate the data and the error envelope, so
no response carries both); for an unclassified exception the detail is
`'Unknown Error'` whenever the effective log level is above debug. -/
theorem c4_wrapper_error_envelope {α : Type} (dV dG dN logLevel debugLevel : Nat)
    (funResult : Except PyExc α) (commitResult : Except PyExc Unit) (e : PyExc)
    (h : funResult = .error e ∨ ∃ a, funResult = .ok a ∧ commitResult = .error e) :
    method_wrapper dV dG dN logLevel debugLevel funResult commitResult
      = .rollbackAndAbort (exc_status dV dG dN e) [⟨exc_message logLevel debugLevel e⟩]
    ∧ (is_unclassified e = true → logLevel > debugLevel →
        exc_message logLevel debugLevel e = unknownErrorMsg) := by
  constructor
  · rcases h with h | ⟨a, ha, hc⟩
    · rw [h]
      rfl
    · rw [ha, hc]
      rfl
  · intro hu hl
    cases e with
    | validationError m s => simp [is_unclassified] at hu
    | genericError m s => simp [is_unclassified] at hu
    | notFoundError m s => simp [is_unclassified] at hu
    | werkzeugNotFound => simp [is_unclassified] at hu
    | typeError m => simp [exc_message, hl]
    | indexError m => simp [exc_message, hl]
    | zeroDivisionError m => simp [exc_message, hl]
    | attributeError m => simp [exc_message, hl]
    | otherExc s m => simp [exc_message, hl]

/-- C4 witness: a raised `TypeError` at effective level 20 (> debug 10)
aborts with status 500 and the single redacted detail `'Unknown Error'`. -/
theorem c4_wrapper_error_envelope_witness :
    method_wrapper 400 500 404 20 10
        (Except.error (PyExc.typeError "boom".data) : Except PyExc Unit) (Except.ok ())
      = WrapperResult.rollbackAndAbort 500 [⟨unknownErrorMsg⟩]
    ∧ exc_message 20 10 (PyExc.typeError "boom".data) = unknownErrorMsg := by
  have h := c4_wrapper_error_envelope 400 500 404 20 10
    (Except.error (PyExc.typeError "boom".data) : Except PyExc Unit) (Except.ok ())
    (PyExc.typeError "boom".data) (Or.inl rfl)
  exact ⟨h.1.trans (by decide), h.2 (by decide) (by decide)⟩

/-- C5: contrary to the claim, a `page[limit]` value that `int()` cannot
parse is *not* replaced by the configured default: the `except` clause
only logs, `limit` stays the raw string, and the `page_base` division then
raises a `TypeError`, so the request fails instead of being processed as
if `page[limit]` were absent (which the third conjunct shows would
succeed). -/
theorem c5_invalid_page_limit_keeps_string :
    parse_limit (some "abc".data) 250 = PyVal.strv "abc".data
    ∧ paginate_request [0, 1, 2] none (some "abc".data) 250 3
        = .error (.typeError "unsupported operand type for int division".data)
    ∧ paginate_request [0, 1, 2] none none 250 3
        = .ok (⟨⟨0, 250⟩, none, none, none, none⟩, [0, 1, 2]) := by
  decide

/-- C6: a POST to a `MANY_TO_ONE` relationship whose `data` array has two
or more elements raises the 403-flagged `ValidationError` before any
write, and the persisted relationship value is unchanged. -/
theorem c6_post_manytoone_too_many (child_class_name : List Char)
    (get_instance : List Char → Option Nat) (rel0 : Option Nat)
    (data : List ResIdent) (h : 2 ≤ data.length) :
    relationship_post_manytoone child_class_name get_instance rel0 data
      = .error (.validationError
          "Too many items for a MANYTOONE relationship".data (some 403))
    ∧ persisted_rel rel0
        (relationship_post_manytoone child_class_name get_instance rel0 data)
      = rel0 := by
  have hgt : data.length > 1 := h
  have h1 : relationship_post_manytoone child_class_name get_instance rel0 data
      = .error (.validationError
          "Too many items for a MANYTOONE relationship".data (some 403)) := by
    rw [relationship_post_manytoone.eq_def]
    simp only []
    rw [if_pos hgt]
  refine ⟨h1, ?_⟩
  rw [h1]
  rfl

/-- C6 witness at a concrete two-element body. -/
theorem c6_post_manytoone_too_many_witness :
    2 ≤ twoIdents.length
    ∧ relationship_post_manytoone ['C'] (fun _ => none) (some 5) twoIdents
        = .error (.validationError
            "Too many items for a MANYTOONE relationship".data (some 403))
    ∧ persisted_rel (some 5)
        (relationship_post_manytoone ['C'] (fun _ => none) (some 5) twoIdents)
      = some 5 :=
  ⟨by decide,
    (c6_post_manytoone_too_many ['C'] (fun _ => none) (some 5) twoIdents (by decide)).1,
    (c6_post_manytoone_too_many ['C'] (fun _ => none) (some 5) twoIdents (by decide)).2⟩

/-- C7: contrary to the claim, a POST to a `MANY_TO_ONE` relationship with
an empty `data` array does not succeed: after `setattr(parent, key, None)`
the handler still evaluates `data[0]`, which raises `IndexError`, the
wrapper rolls back, and the persisted relationship value is unchanged
(here it stays `some 7` instead of being cleared). -/
theorem c7_post_manytoone_empty_data :
    relationship_post_manytoone ['C'] (fun _ => none) (some 7) []
      = .error (.indexError "list index out of range".data)
    ∧ persisted_rel (some 7)
        (relationship_post_manytoone ['C'] (fun _ => none) (some 7) [])
      = some 7 := by
  decide

/-- C8 counterexample: the current to-one relation value is instance `1`,
but a GET naming child `2` (which exists) returns `[2]` instead of the
`404` the claim requires for a non-matching child — the handler never
compares the looked-up child with the relation value. -/
theorem c8_relationship_get_counterexample :
    relationship_get .manytoone (.one (some 1)) (some ['2']) (fun _ => some 2)
      = .okResp (.items [some 2]) true
    ∧ (some 2 : Option Nat) ≠ some 1 := by
  decide

/-- C8 amended: on a relationship GET with a (truthy) child id, a to-one
relation value returns the looked-up child with no match check; a to-many
relation returns the child wrapped in a list iff it is a member and
responds 404 otherwise; a null to-one relation makes the `child in
relation` membership test raise a `TypeError`. -/
theorem c8_relationship_get_child (direction : RelDirection)
    (get_instance : List Char → Option Nat) (cid : List Char) (hcid : cid ≠ []) :
    (∀ r : Nat, relationship_get direction (.one (some r)) (some cid) get_instance
      = .okResp (.items [get_instance cid]) (decide (direction = .manytoone)))
    ∧ (∀ l : List Nat, relationship_get direction (.many l) (some cid) get_instance
      = if get_instance cid ∈ l.map some
        then .okResp (.items [get_instance cid]) (decide (direction = .manytoone))
        else .notFound404)
    ∧ relationship_get direction (.one none) (some cid) get_instance
      = .pyError (.typeError "argument of type NoneType is not iterable".data) := by
  refine ⟨?_, ?_, ?_⟩
  · intro r
    simp [relationship_get, hcid]
  · intro l
    simp [relationship_get, hcid]
  · simp [relationship_get, hcid]

/-- C8 witness: at a concrete to-one relation and child id. -/
theorem c8_relationship_get_child_witness :
    (['2'] : List Char) ≠ []
    ∧ relationship_get .onetomany (.one (some 1)) (some ['2']) (fun _ => some 2)
      = .okResp (.items [some 2]) (decide (RelDirection.onetomany = .manytoone)) :=
  ⟨by decide,
    (c8_relationship_get_child .onetomany (fun _ => some 2) ['2'] (by decide)).1 1⟩

/-- C9: a PATCH whose body `data` object lacks an `id`, or whose decoded
body id differs from the decoded url id, raises a `ValidationError`; no
`_s_patch` effect is produced (`patch_effects` is `none`), so the instance
is unmodified. -/
theorem c9_patch_id_mismatch (uid : List Char) (huid : uid ≠ [])
    (validate_id : List Char → List Char) (get_instance : List Char → Option Nat)
    (body_id : Option (List Char)) (attrs : List (List Char × List Char))
    (h : body_id = none ∨ ∃ b, body_id = some b ∧ validate_id uid ≠ validate_id b) :
    is_validation_error (resource_patch (some uid)
      (some (.bodyObj (some (.dataObj body_id attrs)))) validate_id get_instance) = true
    ∧ patch_effects (resource_patch (some uid)
      (some (.bodyObj (some (.dataObj body_id attrs)))) validate_id get_instance)
      = none := by
  have key : ∃ m s, resource_patch (some uid)
      (some (.bodyObj (some (.dataObj body_id attrs)))) validate_id get_instance
      = .error (.validationError m s) := by
    rcases h with rfl | ⟨b, rfl, hne⟩
    · cases attrs with
      | nil =>
        refine ⟨"Invalid Data Object".data, none, ?_⟩
        simp [resource_patch, huid, data_falsy]
      | cons a rest =>
        refine ⟨"Invalid ID".data, none, ?_⟩
        simp [resource_patch, huid, data_falsy]
    · refine ⟨"Invalid ID".data, none, ?_⟩
      simp [resource_patch, huid, data_falsy, hne]
  rcases key with ⟨m, s, hk⟩
  rw [hk]
  exact ⟨rfl, rfl⟩

/-- C9 witness: url id `1`, body id `2`, identity id-decoding. -/
theorem c9_patch_id_mismatch_witness :
    (['1'] : List Char) ≠ []
    ∧ is_validation_error (resource_patch (some ['1'])
        (some (.bodyObj (some (.dataObj (some ['2']) [])))) (fun s => s)
        (fun _ => some 0)) = true
    ∧ patch_effects (resource_patch (some ['1'])
        (some (.bodyObj (some (.dataObj (some ['2']) [])))) (fun s => s)
        (fun _ => some 0)) = none :=
  ⟨by decide,
    (c9_patch_id_mismatch ['1'] (by decide) (fun s => s) (fun _ => some 0)
      (some ['2']) [] (Or.inr ⟨['2'], rfl, by decide⟩)).1,
    (c9_patch_id_mismatch ['1'] (by decide) (fun s => s) (fun _ => some 0)
      (some ['2']) [] (Or.inr ⟨['2'], rfl, by decide⟩)).2⟩

/-- C2 counterexample: at `page[offset]=10, page[limit]=10, count=25` the
`next` link is omitted although its target `(20,10)` differs from the
claim's self pair `(min(page_base,last),limit) = (10,10)`; the `prev` link
is likewise omitted although its target `(0,10)` differs from that self
pair.  So omission is not governed by equality with the self pair for
`next`/`prev`. -/
theorem c2_link_omission_counterexample :
    paginate_links 10 10 25
      = .ok ⟨⟨10, 10⟩, some ⟨0, 10⟩, some ⟨20, 10⟩, none, none⟩
    ∧ next_args_def 10 10 25 ≠ self_args_def 10 10 25
    ∧ prev_args_def 10 10 ≠ self_args_def 10 10 25 := by
  decide

/-- C2 amended: in `paginate`'s links dict, `first` and `last` are each
omitted exactly when their target pair equals the clamped self pair
`(min(page_base, last_offset), limit)`, while `next` is omitted exactly
when its target equals the `last` pair and `prev` exactly when its target
equals the `first` pair. -/
theorem c2_link_omission (page_offset limit count : Int) (hlim : limit ≠ 0)
    (L : PageLinksT) (hL : paginate_links page_offset limit count = .ok L) :
    (L.firstL = none ↔ first_args_def limit = self_args_def page_offset limit count)
    ∧ (L.lastL = none ↔ last_args_def limit count = self_args_def page_offset limit count)
    ∧ (L.nextL = none ↔ next_args_def page_offset limit count = last_args_def limit count)
    ∧ (L.prevL = none ↔ prev_args_def page_offset limit = first_args_def limit) := by
  rw [paginate_links, if_neg hlim] at hL
  injection hL with hL
  subst hL
  refine ⟨?_, ?_, ?_, ?_⟩ <;> dsimp only <;> (split <;> simp_all)

/-- C2 witness: the amended omission conditions at `(10, 10, 25)`. -/
theorem c2_link_omission_witness :
    ((PageLinksT.mk ⟨10, 10⟩ (some ⟨0, 10⟩) (some ⟨20, 10⟩) none none).firstL = none
      ↔ first_args_def 10 = self_args_def 10 10 25)
    ∧ ((PageLinksT.mk ⟨10, 10⟩ (some ⟨0, 10⟩) (some ⟨20, 10⟩) none none).lastL = none
      ↔ last_args_def 10 25 = self_args_def 10 10 25)
    ∧ ((PageLinksT.mk ⟨10, 10⟩ (some ⟨0, 10⟩) (some ⟨20, 10⟩) none none).nextL = none
      ↔ next_args_def 10 10 25 = last_args_def 10 25)
    ∧ ((PageLinksT.mk ⟨10, 10⟩ (some ⟨0, 10⟩) (some ⟨20, 10⟩) none none).prevL = none
      ↔ prev_args_def 10 10 = first_args_def 10) :=
  c2_link_omission 10 10 25 (by decide)
    (PageLinksT.mk ⟨10, 10⟩ (some ⟨0, 10⟩) (some ⟨20, 10⟩) none none) (by decide)

/-- C10 counterexample: at `page[offset]=30, page[limit]=10, count=20` the
emitted `self` link carries the *raw* offset pair `(30,10)` — it is not
clamped to the last-page offset `(20,10)` as the claim states; the
clamped pair `self_args` is used only for the omission comparisons. -/
theorem c10_self_link_counterexample :
    paginate_q (List.range 20) 30 10 20
      = .ok (⟨⟨30, 10⟩, some ⟨0, 10⟩, none, none, some ⟨20, 10⟩⟩, [])
    ∧ PageArgs.mk 30 10 ≠ self_args_def 30 10 20
    ∧ self_args_def 30 10 20 = ⟨20, 10⟩ := by
  decide

/-- C10 amended: the materialized page is the slice of the query at the
raw parsed `page[offset]`, and the emitted `self` link also carries the
raw `(offset, limit)` pair, so the returned data is exactly the page the
`self` link designates; the clamped pair `(min(page_base, last_offset),
limit)` enters only the link-omission comparisons. -/
theorem c10_data_slice_matches_self (rows : List Nat) (page_offset limit count : Int)
    (hoff : 0 ≤ page_offset) (hlim : 0 < limit) (L : PageLinksT) (inst : List Nat)
    (h : paginate_q rows page_offset limit count = .ok (L, inst)) :
    inst = pySlice rows page_offset limit
    ∧ L.selfL = ⟨page_offset, limit⟩
    ∧ inst = pySlice rows L.selfL.offset L.selfL.limit := by
  have hlim' : limit ≠ 0 := by omega
  rw [paginate_q, paginate_links, if_neg hlim'] at h
  simp only [] at h
  injection h with h
  injection h with h1 h2
  subst h2
  refine ⟨rfl, ?_, ?_⟩
  · rw [← h1]
  · rw [← h1]

/-- C10 witness: at `(rows = range 20, offset 30, limit 10, count 20)` the
returned page is the empty raw-offset slice and coincides with the slice
the `self` link designates. -/
theorem c10_data_slice_matches_self_witness :
    ([] : List Nat) = pySlice (List.range 20) 30 10
    ∧ (PageLinksT.mk ⟨30, 10⟩ (some ⟨0, 10⟩) none none (some ⟨20, 10⟩)).selfL
      = ⟨30, 10⟩
    ∧ ([] : List Nat) = pySlice (List.range 20)
        (PageLinksT.mk ⟨30, 10⟩ (some ⟨0, 10⟩) none none (some ⟨20, 10⟩)).selfL.offset
        (PageLinksT.mk ⟨30, 10⟩ (some ⟨0, 10⟩) none none (some ⟨20, 10⟩)).selfL.limit :=
  c10_data_slice_matches_self (List.range 20) 30 10 20 (by decide) (by decide)
    (PageLinksT.mk ⟨30, 10⟩ (some ⟨0, 10⟩) none none (some ⟨20, 10⟩)) [] (by decide)

theorem mem_filter_rows (tbl : Table) (col val : List Char) (r : RowT) :
    r ∈ filter_rows tbl col val ↔
      r ∈ tbl.rows ∧ rowVal r col ∈ splitOnChar ',' val := by
  simp [filter_rows, List.mem_filter]

/-- C1: when at least one `filter[col]` parameter is present, a row is in
`jsonapi_filter`'s result exactly when some filter `(col, vals)` admits it
— i.e. the result is (as a set) the union over the filtered columns of
the rows whose `col` value is a member of the comma-split value list, not
the intersection. -/
theorem c1_filter_union (tbl : Table) (args : List (List Char × List Char))
    (L : List (List Char × List Char)) (hL : gather_filters tbl args = .ok L)
    (hne : L ≠ []) (res : List RowT) (hres : jsonapi_filter tbl args = .ok res) :
    ∀ r : RowT, r ∈ res ↔
      ∃ f ∈ L, r ∈ tbl.rows ∧ rowVal r f.1 ∈ splitOnChar ',' f.2 := by
  rcases L with _ | ⟨f0, fs⟩
  · exact absurd rfl hne
  rw [jsonapi_filter.eq_def, hL] at hres
  simp only [] at hres
  injection hres with hres
  subst hres
  intro r
  constructor
  · intro hr
    rcases List.mem_append.mp hr with h0 | hj
    · exact ⟨f0, List.mem_cons_self _ _, (mem_filter_rows tbl f0.1 f0.2 r).mp h0⟩
    · rcases List.mem_flatten.mp hj with ⟨l, hl, hrl⟩
      rcases List.mem_map.mp hl with ⟨f, hf, rfl⟩
      exact ⟨f, hf, (mem_filter_rows tbl f.1 f.2 r).mp hrl⟩
  · rintro ⟨f, hf, hmem⟩
    refine List.mem_append.mpr (Or.inr ?_)
    refine List.mem_flatten.mpr
      ⟨filter_rows tbl f.1 f.2, List.mem_map.mpr ⟨f, hf, rfl⟩, ?_⟩
    exact (mem_filter_rows tbl f.1 f.2 r).mpr hmem

/-- C1 witness: the membership equivalence at a concrete table, filters
and row. -/
theorem c1_filter_union_witness :
    c1filters ≠ []
    ∧ (rowRedS ∈ c1res ↔
        ∃ f ∈ c1filters, rowRedS ∈ colorTable.rows
          ∧ rowVal rowRedS f.1 ∈ splitOnChar ',' f.2) :=
  ⟨by decide,
    c1_filter_union colorTable c1args c1filters (by decide) (by decide) c1res
      (by decide) rowRedS⟩

/-- C3 counterexample: in `chainWorld` (0 —b→ 1 —c→ 2), resolving
`include=+all` from instance 0 yields exactly `{1}`: the directly related
instance 1 is included but its own related instance 2 is not, although
the claim requires one more level of relationships to be resolved (the
third conjunct shows instance 1 does declare the relationship to 2). -/
theorem c3_all_counterexample :
    get_included chainWorld (.inst 0) 50 allTok = [1]
    ∧ (2 : Nat) ∉ get_included chainWorld (.inst 0) 50 allTok
    ∧ lookupRel chainWorld 1 ['c'] = some (.one (some 2)) := by
  have h := get_included_allTok chainWorld 0 50 (by decide) (by decide)
  rw [h]
  exact ⟨by decide, by decide, by decide⟩

/-- C3 amended: with the `'+all'` sentinel as include spec, `get_included`
returns exactly the targets of the relationships directly declared on the
instance's class (collections truncated to `limit`), as a deduplicated
set; the subsequent per-resource pass calls the resolver with the default
empty include spec and therefore adds no further level. -/
theorem c3_all_include_only_direct (w : World) (i : Nat) (limit : Nat)
    (hnk : allTok ∉ keysOf w i) (hnd : (keysOf w i).Nodup) :
    get_included w (.inst i) limit allTok = direct_included w i limit :=
  get_included_allTok w i limit hnk hnd

/-- C3 witness: the amended statement instantiated in `chainWorld`. -/
theorem c3_all_include_only_direct_witness :
    allTok ∉ keysOf chainWorld 0
    ∧ (keysOf chainWorld 0).Nodup
    ∧ get_included chainWorld (.inst 0) 50 allTok = direct_included chainWorld 0 50 :=
  ⟨by decide, by decide, c3_all_include_only_direct chainWorld 0 50 (by decide) (by decide)⟩
